import Mathlib

/-!
Shallow embedding of `src/rantevou.py`, a vaccination-appointment watcher:
it polls a remote service for appointment availability, sends a Telegram
notification when a slot opens, deletes it when the slot fills, and drains
all outstanding notifications on SIGINT/SIGTERM.

The embedding models:
* the data classes `VaccinationCenter`, `ClockZone`, `Timeslot`, `Slot`;
* `availability_emoji` and `format_message` (the latter parameterised by
  `pretty_date`, which delegates to the external `babel` library);
* the reconciler block of the main loop (lines 219-231): the shared
  `active_slots` dictionary is modelled as an insertion-ordered association
  list, and the external Telegram calls are recorded in a trace of `Call`s;
* the signal `handler` (lines 196-201) as a trace of events;
* `send_telegram_message` response handling (lines 102-105) over a decoded
  JSON value, with Python `d[key]` subscripts that can raise `KeyError`;
* the outer `while True` sweep loop (lines 206-234) with fallible network
  fetches, where an uncaught exception propagates out of the loop.

Dates are modelled as ordinal day numbers (`Int`); `timedelta(days=n)` is
addition of `n`.
-/

namespace Rantevou

/-- Calendar date as an ordinal day number; `timedelta(days=1)` is `+ 1`. -/
abbrev Date := Int

/-- `ClockZone` dataclass (frozen): id plus textual start/end time window. -/
structure ClockZone where
  id : Int
  start : String
  stop : String
deriving DecidableEq, Repr

/-- `ClockZone.__repr__`: `f"{self.start}-{self.end}"`. (`end` is a Lean
keyword, hence the field is named `stop`.) -/
def ClockZone.render (cz : ClockZone) : String :=
  cz.start ++ "-" ++ cz.stop

/-- `VaccinationCenter` dataclass (frozen): id, display name, and the
`days_after_today` earliest-queryable offset. -/
structure VaccinationCenter where
  id : Int
  name : String
  days_after_today : Int
deriving DecidableEq, Repr

/-- `Timeslot` dataclass (frozen): one decoded availability observation. -/
structure Timeslot where
  date : Date
  clock_zone : ClockZone
  availability_percent : Int
deriving DecidableEq, Repr

/-- `Slot` dataclass (frozen): the deduplication key
`(center_id, date, clock_zone)` used for the `active_slots` table. -/
structure Slot where
  center_id : Int
  date : Date
  clock_zone : ClockZone
deriving DecidableEq, Repr

/-- `siren = chr(0x1F6A8)` -/
def siren : Char := Char.ofNat 0x1F6A8
/-- `orange = chr(0x1F7E7)` — the low-availability marker. -/
def orange : Char := Char.ofNat 0x1F7E7
/-- `yellow = chr(0x1F7E8)` — the medium-availability marker. -/
def yellow : Char := Char.ofNat 0x1F7E8
/-- `green = chr(0x1F7E9)` — the high-availability marker. -/
def green : Char := Char.ofNat 0x1F7E9

/-- `availability_emoji` (lines 170-176): starts from `yellow`, switches to
`orange` when `percentage < 100 / 3` and to `green` when
`percentage > 200 / 3`.  Python evaluates `100 / 3` in floating point; for
the integer arguments the program passes, comparison against the float is
equivalent to the exact rational comparison (the double nearest 100/3 lies
strictly between 33 and 34, the one nearest 200/3 strictly between 66 and
67), so the embedding uses exact rationals. -/
def availability_emoji (percentage : ℚ) : Char :=
  if percentage < 100 / 3 then orange
  else if percentage > 200 / 3 then green
  else yellow

/-- `book_url` constant. -/
def book_url : String := "https://emvolio.gov.gr/app"

/-- `book_now` f-string. -/
def book_now : String := "Κλείστε τώρα! " ++ book_url

/-- `format_message` (lines 187-189), parameterised by `pretty_date`, which
in the source delegates to the external `babel.dates.format_date`. -/
def format_message (pretty_date : Date → String) (ts : Timeslot)
    (center : VaccinationCenter) : String :=
  let box := availability_emoji ts.availability_percent
  String.singleton siren ++ String.singleton siren ++ " Διαθεσιμότητα "
    ++ String.singleton box ++ " για " ++ pretty_date ts.date ++ " (ώρα "
    ++ ts.clock_zone.render ++ ") στο " ++ center.name ++ "! "
    ++ String.singleton siren ++ String.singleton siren ++ "\n" ++ book_now

/-- The `active_slots: dict[Slot, str]` table, modelled as an
insertion-ordered association list (Python dicts preserve insertion order;
keys are unique by construction, which the embedding proves as an invariant
rather than assuming). -/
abbrev Table := List (Slot × String)

/-- Python `slot in active_slots` / `active_slots[slot]`: first binding of
the key, if any. -/
def lookupSlot : Table → Slot → Option String
  | [], _ => none
  | (k, v) :: rest, s => if k = s then some v else lookupSlot rest s

/-- Python `del active_slots[slot]`: remove the binding of the key. Since
dict keys are unique, removing every binding of the key coincides with
removing the one binding. -/
def removeSlot (t : Table) (s : Slot) : Table :=
  t.filter (fun e => decide (e.1 ≠ s))

/-- One external Telegram call made by the reconciler block:
`send_telegram_message msg` or `delete_telegram_message handle`. -/
inductive Call where
  | create (msg : String)
  | delete (handle : String)
deriving DecidableEq, Repr

/-- The reconciler block of the main loop (lines 219-231), for one decoded
timeslot of one center.  `newHandle` is the opaque `message_id` the
Telegram sink would return if a message is sent this step.  Returns the
updated table and the trace of external calls:

    slot = Slot(center.id, ts.date, ts.clock_zone)
    if ts.availability_percent > 0 and slot not in active_slots:
        msgid = send_telegram_message(format_message(ts, center))
        active_slots[slot] = msgid
    elif ts.availability_percent == 0 and slot in active_slots:
        delete_telegram_message(active_slots[slot])
        del active_slots[slot]
-/
def reconcile (pretty_date : Date → String) (center : VaccinationCenter)
    (newHandle : String) (active_slots : Table) (ts : Timeslot) :
    Table × List Call :=
  let slot : Slot :=
    { center_id := center.id, date := ts.date, clock_zone := ts.clock_zone }
  if ts.availability_percent > 0 ∧ lookupSlot active_slots slot = none then
    (active_slots ++ [(slot, newHandle)],
      [Call.create (format_message pretty_date ts center)])
  else if ts.availability_percent = 0 ∧ lookupSlot active_slots slot ≠ none then
    match lookupSlot active_slots slot with
    | some msgid => (removeSlot active_slots slot, [Call.delete msgid])
    | none => (active_slots, [])
  else
    (active_slots, [])

/-- One observation as fed to the reconciler: the center being polled, the
decoded timeslot, and the handle the sink would return on a create. -/
abbrev ObsInput := VaccinationCenter × Timeslot × String

/-- Replay a sequence of observations through one reconciler instance,
threading the table and concatenating the call traces. -/
def replay (pretty_date : Date → String) :
    List ObsInput → Table → Table × List Call
  | [], t => (t, [])
  | (c, ts, h) :: rest, t =>
    let step := reconcile pretty_date c h t ts
    let next := replay pretty_date rest step.1
    (next.1, step.2 ++ next.2)

/-- Every intermediate table state of a replay, the initial table included. -/
def replayTables (pretty_date : Date → String) :
    List ObsInput → Table → List Table
  | [], t => [t]
  | (c, ts, h) :: rest, t =>
    t :: replayTables pretty_date rest (reconcile pretty_date c h t ts).1

/-- Cursor initialisation for one center (lines 211-213):
`start_date = datetime.now().date() + timedelta(days=center.days_after_today + 1)`. -/
def initial_cursor (today : Date) (center : VaccinationCenter) : Date :=
  today + (center.days_after_today + 1)

/-- The body of the inner `for ts in request_timeslots(...)` loop
(lines 216-231): advance the cursor to `ts.date + timedelta(days=1)` first,
then run the reconciler block.  The state is `(start_date, active_slots)`. -/
def poll_step (pretty_date : Date → String) (center : VaccinationCenter)
    (st : Date × Table) (tsh : Timeslot × String) : (Date × Table) × List Call :=
  let start_date := tsh.1.date + 1
  let step := reconcile pretty_date center tsh.2 st.2 tsh.1
  ((start_date, step.1), step.2)

/-- One fetch round for one center: fold `poll_step` over the date-ascending
sequence yielded by `request_timeslots`. -/
def poll_round (pretty_date : Date → String) (center : VaccinationCenter) :
    (Date × Table) → List (Timeslot × String) → (Date × Table) × List Call
  | st, [] => (st, [])
  | st, tsh :: rest =>
    let step := poll_step pretty_date center st tsh
    let next := poll_round pretty_date center step.1 rest
    (next.1, step.2 ++ next.2)

/-- One event performed by the signal `handler` or the main loop while
holding or manipulating the shared state.  The program has a single mutex,
`active_slots_mu` (line 193), acquired by the reconciler block (lines
221/231) and by the handler (line 197); `acquire` models acquiring it. -/
inductive Event where
  | acquire
  | logInfo (msg : String)
  | deleteMsg (handle : String)
  | exitProcess (code : Nat)
deriving DecidableEq, Repr

/-- The signal `handler` (lines 196-201), as the trace of effects it
performs, in order:

    active_slots_mu.acquire()
    logging.info("deleting messages for active slots")
    for _, msgid in active_slots.items():
        delete_telegram_message(msgid)
    exit(0)

Python dict iteration visits each entry exactly once, in insertion order. -/
def handler (active_slots : Table) : List Event :=
  Event.acquire :: Event.logInfo "deleting messages for active slots" ::
    (active_slots.map (fun e => Event.deleteMsg e.2) ++ [Event.exitProcess 0])

/-- Decoded JSON value, as produced by `json.loads` on a response body. -/
inductive Json where
  | null
  | bool (b : Bool)
  | num (n : Int)
  | str (s : String)
  | arr (elems : List Json)
  | obj (fields : List (String × Json))

/-- Python `key in d` / `d.get(key)` on a decoded JSON object: the first
binding of the key, `none` when absent or when the value is not a dict. -/
def Json.get? : Json → String → Option Json
  | .obj fields, key => fields.lookup key
  | _, _ => none

/-- A Python exception the modelled fragments can raise. -/
inductive PyError where
  | keyError (key : String)
deriving DecidableEq, Repr

/-- One log line emitted through `logging`. -/
inductive LogEvent where
  | warnMissingKey (key : String)
deriving DecidableEq, Repr

/-- `warn_if_no_key` (lines 88-90): log a warning when `key not in d`;
never raises. -/
def warn_if_no_key (d : Json) (key : String) : List LogEvent :=
  if (d.get? key).isNone then [LogEvent.warnMissingKey key] else []

/-- Python subscript `d[key]` on a decoded JSON object: the value, or a
`KeyError` when the key is absent (or the value is not a dict). -/
def pySubscript (d : Json) (key : String) : Except PyError Json :=
  match d.get? key with
  | some v => Except.ok v
  | none => Except.error (PyError.keyError key)

/-- Response handling of `send_telegram_message` (lines 102-105), applied to
the decoded JSON response `res`.  Returns the log lines emitted and either
the returned `res["result"]["message_id"]` or the exception raised:

    warn_if_no_key(res, "result")
    return res["result"]["message_id"]
-/
def send_telegram_message (res : Json) : List LogEvent × Except PyError Json :=
  (warn_if_no_key res "result",
    do
      let result ← pySubscript res "result"
      pySubscript result "message_id")

/-- A network/transport failure raised by a blocking urllib call. -/
inductive NetError where
  | transport (detail : String)
deriving DecidableEq, Repr

/-- The input one full sweep consumes: either the fetches of the sweep all
succeeded, yielding the observation stream fed to the reconciler, or some
fetch or notification call raised a transport error. -/
abbrev SweepInput := Except NetError (List ObsInput)

/-- One full sweep of the `while True` body (lines 206-233): process every
observation through the reconciler, or propagate an uncaught exception.
The source contains no `try`/`except`, so a raised error aborts the sweep. -/
def run_sweep (pretty_date : Date → String) (t : Table) (inp : SweepInput) :
    Except NetError (Table × List Call) :=
  match inp with
  | Except.error e => Except.error e
  | Except.ok obs => Except.ok (replay pretty_date obs t)

/-- The outer `while True` poll loop (line 206) over a list of sweep inputs.
There is no exception handler anywhere in the program, so the first raised
transport error propagates out of the loop and terminates the process:
subsequent sweeps are never run. -/
def run_sweeps (pretty_date : Date → String) :
    Table → List SweepInput → Except NetError Table
  | t, [] => Except.ok t
  | t, inp :: rest =>
    match run_sweep pretty_date t inp with
    | Except.error e => Except.error e
    | Except.ok (t', _) => run_sweeps pretty_date t' rest

/-- Recognise a notification-delete event in a handler trace. -/
def isDeleteEvent : Event → Bool
  | Event.acquire => false
  | Event.logInfo _ => false
  | Event.deleteMsg _ => true
  | Event.exitProcess _ => false

/-- The entries of the table bound to one key. -/
def entriesFor (t : Table) (s : Slot) : Table :=
  t.filter (fun e => decide (e.1 = s))

/-- The `SlotKey` an observation input reconciles against:
`Slot(center.id, ts.date, ts.clock_zone)` (line 219). -/
def slotOf (x : ObsInput) : Slot :=
  { center_id := x.1.id, date := x.2.1.date, clock_zone := x.2.1.clock_zone }

/-- Fixture date formatter standing in for `babel.dates.format_date`. -/
def pd0 : Date → String := fun _ => "Σάββατο 1 Μαΐου"

/-- Fixture clock zone. -/
def z9 : ClockZone := ⟨1, "09:00", "13:00"⟩

/-- Fixture vaccination center. -/
def cA : VaccinationCenter := ⟨1, "A", 0⟩

/-- Fixture table with three entries and pairwise-distinct handles. -/
def tbl3 : Table := [(⟨1, 1, z9⟩, "a"), (⟨1, 2, z9⟩, "b"), (⟨1, 3, z9⟩, "c")]

/-- Fixture observation sequence: one slot opens at 50%, then closes. -/
def obsA : List ObsInput := [(cA, ⟨1, z9, 50⟩, "h1"), (cA, ⟨1, z9, 0⟩, "h2")]

/-- Fixture intermediate observations: a different slot (date 2) opens
while slot (date 1) is tracked. -/
def midB : List ObsInput := [(cA, ⟨2, z9, 70⟩, "k")]

/-! ### Severity classification (claims C5 and C10) -/

/-- C5: for every percent in [0,100], the severity classifier returns the
low marker (`orange`) iff `percent < 100/3`, the high marker (`green`) iff
`percent > 200/3`, and the medium marker (`yellow`) otherwise; in
particular 33 maps to low, 34 and 66 to medium, and 67 to high. -/
theorem c5_severity_thresholds (p : ℤ) (h0 : 0 ≤ p) (h100 : p ≤ 100) :
    (availability_emoji (p : ℚ) = orange ↔ (p : ℚ) < 100 / 3)
    ∧ (availability_emoji (p : ℚ) = green ↔ (p : ℚ) > 200 / 3)
    ∧ (availability_emoji (p : ℚ) = yellow ↔
        ¬((p : ℚ) < 100 / 3) ∧ ¬((p : ℚ) > 200 / 3))
    ∧ availability_emoji 33 = orange ∧ availability_emoji 34 = yellow
    ∧ availability_emoji 66 = yellow ∧ availability_emoji 67 = green := by
  have hoy : orange ≠ yellow := by decide
  have hog : orange ≠ green := by decide
  have hyg : yellow ≠ green := by decide
  have hiffs : (availability_emoji (p : ℚ) = orange ↔ (p : ℚ) < 100 / 3)
      ∧ (availability_emoji (p : ℚ) = green ↔ (p : ℚ) > 200 / 3)
      ∧ (availability_emoji (p : ℚ) = yellow ↔
          ¬((p : ℚ) < 100 / 3) ∧ ¬((p : ℚ) > 200 / 3)) := by
    simp only [availability_emoji]
    split_ifs with hlt hgt
    · exact ⟨iff_of_true rfl hlt,
        iff_of_false hog (by intro hgt; linarith),
        iff_of_false hoy (fun hc => hc.1 hlt)⟩
    · exact ⟨iff_of_false (Ne.symm hog) hlt,
        iff_of_true rfl hgt,
        iff_of_false (Ne.symm hyg) (fun hc => hc.2 hgt)⟩
    · exact ⟨iff_of_false (fun he => hoy he.symm) hlt,
        iff_of_false (fun he => hyg he) hgt,
        iff_of_true rfl ⟨hlt, hgt⟩⟩
  refine ⟨hiffs.1, hiffs.2.1, hiffs.2.2, ?_, ?_, ?_, ?_⟩
  · show (if _ then _ else _) = _
    rw [if_pos (by norm_num)]
  · show (if _ then _ else _) = _
    rw [if_neg (by norm_num), if_neg (by norm_num)]
  · show (if _ then _ else _) = _
    rw [if_neg (by norm_num), if_neg (by norm_num)]
  · show (if _ then _ else _) = _
    rw [if_neg (by norm_num), if_pos (by norm_num)]

/-- Witness for C5 at percent 50 (medium tier). -/
theorem c5_severity_thresholds_witness :
    availability_emoji ((50 : ℤ) : ℚ) = yellow :=
  (c5_severity_thresholds 50 (by decide) (by decide)).2.2.1.mpr
    (by constructor <;> norm_num)

/-- C10: the severity classifier is total on all integers: it always
returns exactly one of the three markers (which are pairwise distinct),
with every percent below 100/3 — negative values included — mapping to the
low marker and every percent above 200/3 mapping to the high marker; no
input is rejected or range-checked. -/
theorem c10_severity_total (p : ℤ) :
    (availability_emoji (p : ℚ) = orange ∨ availability_emoji (p : ℚ) = yellow
      ∨ availability_emoji (p : ℚ) = green)
    ∧ ((p : ℚ) < 100 / 3 → availability_emoji (p : ℚ) = orange)
    ∧ ((p : ℚ) > 200 / 3 → availability_emoji (p : ℚ) = green)
    ∧ orange ≠ yellow ∧ orange ≠ green ∧ yellow ≠ green := by
  refine ⟨?_, ?_, ?_, by decide, by decide, by decide⟩
  · simp only [availability_emoji]
    split_ifs <;> simp
  · intro hlt
    simp [availability_emoji, hlt]
  · intro hgt
    have hnlt : ¬((p : ℚ) < 100 / 3) := by linarith
    simp [availability_emoji, hnlt, hgt]

/-- Witness for C10 at the out-of-range inputs -5 and 150. -/
theorem c10_severity_total_witness :
    availability_emoji ((-5 : ℤ) : ℚ) = orange
    ∧ availability_emoji ((150 : ℤ) : ℚ) = green :=
  ⟨(c10_severity_total (-5)).2.1 (by norm_num),
    (c10_severity_total 150).2.2.1 (by norm_num)⟩

/-! ### Telegram create response handling (claim C4) -/

/-- C4: evaluation of the code at a create response missing the `"result"`
key.  The source (lines 104-105) logs the data-quality warning and then
unconditionally evaluates `res["result"]["message_id"]`, which raises
`KeyError("result")` — so, contrary to the claim, the sweep crashes:
the warning does not prevent the unhandled exception. -/
theorem c4_missing_result_key_raises :
    send_telegram_message (Json.obj [("ok", Json.bool true)]) =
      ([LogEvent.warnMissingKey "result"],
        Except.error (PyError.keyError "result")) := rfl

/-! ### Poll-driver cursor (claim C8) -/

/-- C8: the cursor starts at `today + days_after_today + 1`, and after a
date-ascending observation sequence with dates `D1 < D2 < D3` the cursor
equals `D3 + 1`, whatever the availability percentages and however the
reconciler changed the table. -/
theorem c8_cursor_advance (pretty_date : Date → String) (today : Date)
    (center : VaccinationCenter) (d1 d2 d3 : Date) (z1 z2 z3 : ClockZone)
    (p1 p2 p3 : ℤ) (h1 h2 h3 : String) (t : Table)
    (hd12 : d1 < d2) (hd23 : d2 < d3) :
    initial_cursor today center = today + center.days_after_today + 1
    ∧ (poll_round pretty_date center (initial_cursor today center, t)
        [(⟨d1, z1, p1⟩, h1), (⟨d2, z2, p2⟩, h2), (⟨d3, z3, p3⟩, h3)]).1.1
      = d3 + 1 := by
  constructor
  · simp only [initial_cursor]
    ring
  · simp [poll_round, poll_step]

/-- Witness for C8 with dates 10 < 11 < 12. -/
theorem c8_cursor_advance_witness :
    (poll_round (fun _ => "") ⟨1, "A", 2⟩
        (initial_cursor 0 ⟨1, "A", 2⟩, ([] : Table))
        [(⟨10, ⟨1, "09:00", "13:00"⟩, 50⟩, "m1"),
          (⟨11, ⟨1, "09:00", "13:00"⟩, 0⟩, "m2"),
          (⟨12, ⟨1, "09:00", "13:00"⟩, 80⟩, "m3")]).1.1 = 13 :=
  (c8_cursor_advance (fun _ => "") 0 ⟨1, "A", 2⟩ 10 11 12
    ⟨1, "09:00", "13:00"⟩ ⟨1, "09:00", "13:00"⟩ ⟨1, "09:00", "13:00"⟩
    50 0 80 "m1" "m2" "m3" [] (by decide) (by decide)).2

/-! ### Reconciler trichotomy (claim C1) -/

/-- C1: for every observation with percent in [0,100] and any table state,
exactly one of three outcomes holds: a create (message sent, handle
appended under the key) iff percent > 0 and the key is absent; a delete
(stored handle deleted, key removed) iff percent = 0 and the key is
present; and a no-op otherwise.  The last conjunct records that the create
and delete conditions are mutually exclusive, so exactly one of the three
outcomes holds. -/
theorem c1_reconcile_trichotomy (pd : Date → String) (c : VaccinationCenter)
    (h : String) (t : Table) (ts : Timeslot)
    (h0 : 0 ≤ ts.availability_percent) (h100 : ts.availability_percent ≤ 100) :
    ((reconcile pd c h t ts).2 = [Call.create (format_message pd ts c)]
        ∧ (reconcile pd c h t ts).1 = t ++ [(⟨c.id, ts.date, ts.clock_zone⟩, h)]
      ↔ 0 < ts.availability_percent
        ∧ lookupSlot t ⟨c.id, ts.date, ts.clock_zone⟩ = none)
    ∧ ((∃ m, lookupSlot t ⟨c.id, ts.date, ts.clock_zone⟩ = some m
          ∧ (reconcile pd c h t ts).2 = [Call.delete m]
          ∧ (reconcile pd c h t ts).1 = removeSlot t ⟨c.id, ts.date, ts.clock_zone⟩)
      ↔ ts.availability_percent = 0
        ∧ lookupSlot t ⟨c.id, ts.date, ts.clock_zone⟩ ≠ none)
    ∧ ((reconcile pd c h t ts).1 = t ∧ (reconcile pd c h t ts).2 = []
      ↔ ¬(0 < ts.availability_percent
            ∧ lookupSlot t ⟨c.id, ts.date, ts.clock_zone⟩ = none)
        ∧ ¬(ts.availability_percent = 0
            ∧ lookupSlot t ⟨c.id, ts.date, ts.clock_zone⟩ ≠ none))
    ∧ ¬((0 < ts.availability_percent
          ∧ lookupSlot t ⟨c.id, ts.date, ts.clock_zone⟩ = none)
        ∧ (ts.availability_percent = 0
          ∧ lookupSlot t ⟨c.id, ts.date, ts.clock_zone⟩ ≠ none)) := by
  have hexcl : ¬((0 < ts.availability_percent
        ∧ lookupSlot t ⟨c.id, ts.date, ts.clock_zone⟩ = none)
      ∧ (ts.availability_percent = 0
        ∧ lookupSlot t ⟨c.id, ts.date, ts.clock_zone⟩ ≠ none)) := by
    rintro ⟨⟨hp, -⟩, ⟨hz, -⟩⟩
    omega
  simp only [reconcile]
  by_cases hc1 : ts.availability_percent > 0
      ∧ lookupSlot t ⟨c.id, ts.date, ts.clock_zone⟩ = none
  · rw [if_pos hc1]
    refine ⟨iff_of_true ⟨rfl, rfl⟩ hc1, iff_of_false ?_ ?_, iff_of_false ?_ ?_, hexcl⟩
    · rintro ⟨m, hm, -, -⟩
      rw [hc1.2] at hm
      cases hm
    · rintro ⟨hz, -⟩
      have := hc1.1
      omega
    · rintro ⟨-, hnil⟩
      cases hnil
    · rintro ⟨hn, -⟩
      exact hn hc1
  · rw [if_neg hc1]
    by_cases hc2 : ts.availability_percent = 0
        ∧ lookupSlot t ⟨c.id, ts.date, ts.clock_zone⟩ ≠ none
    · rw [if_pos hc2]
      obtain ⟨m, hm⟩ := Option.ne_none_iff_exists'.mp hc2.2
      have hz := hc2.1
      rw [hm]
      refine ⟨iff_of_false ?_ ?_, iff_of_true ⟨m, rfl, rfl, rfl⟩ ⟨hz, by simp⟩,
        iff_of_false ?_ ?_, ?_⟩
      · rintro ⟨hcalls, -⟩
        simp at hcalls
      · rintro ⟨hp, -⟩
        omega
      · rintro ⟨-, hnil⟩
        cases hnil
      · rintro ⟨-, hn⟩
        exact hn ⟨hz, by simp⟩
      · rintro ⟨⟨hp, -⟩, ⟨hz2, -⟩⟩
        omega
    · rw [if_neg hc2]
      refine ⟨iff_of_false ?_ hc1, iff_of_false ?_ hc2,
        iff_of_true ⟨rfl, rfl⟩ ⟨hc1, hc2⟩, hexcl⟩
      · rintro ⟨hcalls, -⟩
        cases hcalls
      · rintro ⟨m, -, hcalls, -⟩
        cases hcalls

/-- Witness for C1 at a fresh key with percent 50 on the empty table. -/
theorem c1_reconcile_trichotomy_witness :
    (reconcile pd0 cA "m1" [] ⟨1, z9, 50⟩).2
        = [Call.create (format_message pd0 ⟨1, z9, 50⟩ cA)]
    ∧ (reconcile pd0 cA "m1" [] ⟨1, z9, 50⟩).1 = [] ++ [(⟨cA.id, 1, z9⟩, "m1")] :=
  (c1_reconcile_trichotomy pd0 cA "m1" [] ⟨1, z9, 50⟩ (by decide) (by decide)).1.mpr
    ⟨by decide, rfl⟩

/-! ### Shutdown handler (claim C3) -/

theorem filter_isDeleteEvent_map (t : Table) :
    ((t.map (fun e => Event.deleteMsg e.2)).filter isDeleteEvent).length
      = t.length := by
  induction t with
  | nil => rfl
  | cons e rest ih => simp [isDeleteEvent, ih]

/-- C3: invoked on a table with N entries, the shutdown handler first
acquires the shared mutex (the trace starts with `acquire`), then issues
exactly N notification-delete calls — one per stored handle, none more
than once (given the stored handles are pairwise distinct) — and finally
terminates the process with exit status 0. -/
theorem c3_shutdown_drains_all (t : Table) (N : ℕ) (hN : t.length = N)
    (hh : (t.map Prod.snd).Nodup) :
    (handler t).head? = some Event.acquire
    ∧ ((handler t).filter isDeleteEvent).length = N
    ∧ (∀ e ∈ t, (handler t).count (Event.deleteMsg e.2) = 1)
    ∧ (handler t).getLast? = some (Event.exitProcess 0) := by
  refine ⟨rfl, ?_, ?_, ?_⟩
  · subst hN
    simp only [handler]
    simp [isDeleteEvent, List.filter_append, filter_isDeleteEvent_map]
  · intro e he
    simp only [handler]
    rw [List.count_cons_of_ne (by simp), List.count_cons_of_ne (by simp),
      List.count_append, List.count_singleton']
    have hmap : t.map (fun e => Event.deleteMsg e.2)
        = (t.map Prod.snd).map Event.deleteMsg := by
      rw [List.map_map]
      rfl
    rw [hmap, List.count_map_of_injective _ Event.deleteMsg
      (fun a b hab => Event.deleteMsg.inj hab),
      List.count_eq_one_of_mem hh (List.mem_map_of_mem Prod.snd he)]
    simp
  · show (([Event.acquire, Event.logInfo "deleting messages for active slots"]
        ++ (t.map (fun e => Event.deleteMsg e.2)
            ++ [Event.exitProcess 0])) : List Event).getLast? = _
    rw [List.getLast?_append_of_ne_nil _ (by simp),
      List.getLast?_append_of_ne_nil _ (by simp)]
    rfl

/-- Witness for C3 on a table with 3 entries. -/
theorem c3_shutdown_drains_all_witness :
    (handler tbl3).head? = some Event.acquire
    ∧ ((handler tbl3).filter isDeleteEvent).length = 3
    ∧ (handler tbl3).count (Event.deleteMsg "b") = 1
    ∧ (handler tbl3).getLast? = some (Event.exitProcess 0) :=
  ⟨(c3_shutdown_drains_all tbl3 3 rfl (by decide)).1,
    (c3_shutdown_drains_all tbl3 3 rfl (by decide)).2.1,
    (c3_shutdown_drains_all tbl3 3 rfl (by decide)).2.2.1 (⟨1, 2, z9⟩, "b")
      (by decide),
    (c3_shutdown_drains_all tbl3 3 rfl (by decide)).2.2.2⟩

/-! ### Association-list lemmas for the `active_slots` table -/

theorem lookupSlot_eq_none_iff (t : Table) (s : Slot) :
    lookupSlot t s = none ↔ s ∉ t.map Prod.fst := by
  induction t with
  | nil => simp [lookupSlot]
  | cons e rest ih =>
    obtain ⟨k, v⟩ := e
    by_cases hk : k = s
    · subst hk
      simp [lookupSlot]
    · simp [lookupSlot, hk, ih, Ne.symm hk]

theorem lookupSlot_append_of_none (t t' : Table) (s : Slot)
    (h : lookupSlot t s = none) :
    lookupSlot (t ++ t') s = lookupSlot t' s := by
  induction t with
  | nil => rfl
  | cons e rest ih =>
    obtain ⟨k, v⟩ := e
    simp only [lookupSlot, List.cons_append] at h ⊢
    by_cases hk : k = s
    · rw [if_pos hk] at h
      cases h
    · rw [if_neg hk] at h
      rw [if_neg hk]
      exact ih h

theorem removeSlot_cons (k : Slot) (v : String) (rest : Table) (s : Slot) :
    removeSlot ((k, v) :: rest) s =
      if k = s then removeSlot rest s else (k, v) :: removeSlot rest s := by
  by_cases hk : k = s <;> simp [removeSlot, List.filter_cons, hk]

theorem lookupSlot_concat_self (t : Table) (s : Slot) (v : String)
    (h : lookupSlot t s = none) :
    lookupSlot (t ++ [(s, v)]) s = some v := by
  rw [lookupSlot_append_of_none t _ s h]
  simp [lookupSlot]

theorem lookupSlot_concat_other (t : Table) (k s : Slot) (v : String)
    (h : k ≠ s) :
    lookupSlot (t ++ [(k, v)]) s = lookupSlot t s := by
  induction t with
  | nil => simp [lookupSlot, h]
  | cons e rest ih =>
    obtain ⟨k', v'⟩ := e
    simp only [lookupSlot, List.cons_append]
    split_ifs with hk
    · rfl
    · exact ih

theorem lookupSlot_removeSlot_self (t : Table) (s : Slot) :
    lookupSlot (removeSlot t s) s = none := by
  induction t with
  | nil => rfl
  | cons e rest ih =>
    obtain ⟨k, v⟩ := e
    rw [removeSlot_cons]
    by_cases hk : k = s
    · rw [if_pos hk]
      exact ih
    · rw [if_neg hk]
      simp only [lookupSlot, if_neg hk]
      exact ih

theorem lookupSlot_removeSlot_other (t : Table) (k s : Slot) (h : k ≠ s) :
    lookupSlot (removeSlot t k) s = lookupSlot t s := by
  induction t with
  | nil => rfl
  | cons e rest ih =>
    obtain ⟨k', v'⟩ := e
    rw [removeSlot_cons]
    by_cases hk' : k' = k
    · rw [if_pos hk']
      have hs : ¬(k' = s) := fun he => h (hk'.symm.trans he)
      simp only [lookupSlot, if_neg hs]
      exact ih
    · rw [if_neg hk']
      simp only [lookupSlot]
      by_cases hs : k' = s
      · rw [if_pos hs, if_pos hs]
      · rw [if_neg hs, if_neg hs]
        exact ih

theorem keys_nodup_reconcile (pd : Date → String) (c : VaccinationCenter)
    (h : String) (t : Table) (ts : Timeslot)
    (hnd : (t.map Prod.fst).Nodup) :
    (((reconcile pd c h t ts).1).map Prod.fst).Nodup := by
  simp only [reconcile]
  split_ifs with hc1 hc2
  · rw [List.map_append]
    rw [List.nodup_append]
    refine ⟨hnd, by simp, ?_⟩
    intro a ha hb
    simp at hb
    subst hb
    exact (lookupSlot_eq_none_iff t _).mp hc1.2 ha
  · obtain ⟨m, hm⟩ := Option.ne_none_iff_exists'.mp hc2.2
    rw [hm]
    exact hnd.sublist ((List.filter_sublist t).map Prod.fst)
  · exact hnd

theorem replayTables_nodup (pd : Date → String) (obs : List ObsInput)
    (t : Table) (hnd : (t.map Prod.fst).Nodup) :
    ∀ t' ∈ replayTables pd obs t, (t'.map Prod.fst).Nodup := by
  induction obs generalizing t with
  | nil =>
    intro t' ht'
    simp only [replayTables, List.mem_singleton] at ht'
    subst ht'
    exact hnd
  | cons x rest ih =>
    obtain ⟨c, ts, h⟩ := x
    intro t' ht'
    simp only [replayTables, List.mem_cons] at ht'
    rcases ht' with rfl | ht'
    · exact hnd
    · exact ih _ (keys_nodup_reconcile pd c h t ts hnd) t' ht'

theorem delete_calls_were_present (pd : Date → String)
    (c : VaccinationCenter) (h : String) (t : Table) (ts : Timeslot)
    (m : String)
    (hm : Call.delete m ∈ (reconcile pd c h t ts).2) :
    lookupSlot t ⟨c.id, ts.date, ts.clock_zone⟩ = some m := by
  simp only [reconcile] at hm
  split_ifs at hm with hc1 hc2
  · simp at hm
  · obtain ⟨m0, hm0⟩ := Option.ne_none_iff_exists'.mp hc2.2
    rw [hm0] at hm
    simp at hm
    rw [hm0, hm]
  · simp at hm

/-! ### Replay invariants (claim C2) -/

/-- C2: replaying any observation sequence through one reconciler instance
from the empty table, every intermediate table state has pairwise-distinct
keys (so each SlotKey maps to at most one handle), and every delete call
issued at any step is of a handle the key was bound to at the moment of
the call (so no delete is issued for an absent key). -/
theorem c2_replay_invariants (pd : Date → String) (obs : List ObsInput) :
    (∀ t ∈ replayTables pd obs [], (t.map Prod.fst).Nodup)
    ∧ (∀ (pre : List ObsInput) (c : VaccinationCenter) (ts : Timeslot)
        (h : String) (suf : List ObsInput) (m : String),
        obs = pre ++ (c, ts, h) :: suf →
        Call.delete m ∈ (reconcile pd c h (replay pd pre []).1 ts).2 →
        lookupSlot (replay pd pre []).1 ⟨c.id, ts.date, ts.clock_zone⟩
          = some m) := by
  refine ⟨replayTables_nodup pd obs [] (by simp), ?_⟩
  intro pre c ts h suf m hobs hm
  exact delete_calls_were_present pd c h _ ts m hm

/-- Witness for C2 on `obsA`: the intermediate table after the create has
distinct keys, and the delete issued by the second observation is of the
handle the key held at that moment. -/
theorem c2_replay_invariants_witness :
    (([((⟨1, 1, z9⟩ : Slot), "h1")] : Table).map Prod.fst).Nodup
    ∧ lookupSlot (replay pd0 [(cA, ⟨1, z9, 50⟩, "h1")] []).1 ⟨cA.id, 1, z9⟩
        = some "h1" :=
  ⟨(c2_replay_invariants pd0 obsA).1 [(⟨1, 1, z9⟩, "h1")] (by decide),
    (c2_replay_invariants pd0 obsA).2 [(cA, ⟨1, z9, 50⟩, "h1")] cA ⟨1, z9, 0⟩
      "h2" [] "h1" rfl (by decide)⟩

/-! ### Idempotent create (claim C6) -/

theorem entriesFor_eq_nil (t : Table) (s : Slot)
    (h : lookupSlot t s = none) : entriesFor t s = [] := by
  induction t with
  | nil => rfl
  | cons e rest ih =>
    obtain ⟨k, v⟩ := e
    simp only [lookupSlot] at h
    by_cases hk : k = s
    · rw [if_pos hk] at h
      cases h
    · rw [if_neg hk] at h
      simpa [entriesFor, List.filter_cons, hk] using ih h

/-- C6: for a key not in the table and percent > 0, processing the same
observation twice in a row yields exactly one create call (the second
processing is a no-op leaving the table unchanged), and the table ends
with exactly one entry for that key — the handle of the first create.
The table `t` is arbitrary, so this holds whether the first observation
happened in the same or a previous poll cycle. -/
theorem c6_idempotent_create (pd : Date → String) (c : VaccinationCenter)
    (h1 h2 : String) (t : Table) (ts : Timeslot)
    (hfresh : lookupSlot t ⟨c.id, ts.date, ts.clock_zone⟩ = none)
    (hp : 0 < ts.availability_percent) :
    (reconcile pd c h1 t ts).2 = [Call.create (format_message pd ts c)]
    ∧ (reconcile pd c h2 (reconcile pd c h1 t ts).1 ts).2 = []
    ∧ (reconcile pd c h2 (reconcile pd c h1 t ts).1 ts).1
        = (reconcile pd c h1 t ts).1
    ∧ entriesFor (reconcile pd c h2 (reconcile pd c h1 t ts).1 ts).1
        ⟨c.id, ts.date, ts.clock_zone⟩
        = [(⟨c.id, ts.date, ts.clock_zone⟩, h1)] := by
  have hcond : ts.availability_percent > 0
      ∧ lookupSlot t ⟨c.id, ts.date, ts.clock_zone⟩ = none := ⟨hp, hfresh⟩
  have hstep1 : reconcile pd c h1 t ts
      = (t ++ [(⟨c.id, ts.date, ts.clock_zone⟩, h1)],
        [Call.create (format_message pd ts c)]) := by
    simp only [reconcile]
    rw [if_pos hcond]
  have hlook1 : lookupSlot (t ++ [(⟨c.id, ts.date, ts.clock_zone⟩, h1)])
      ⟨c.id, ts.date, ts.clock_zone⟩ = some h1 :=
    lookupSlot_concat_self t _ h1 hfresh
  have hstep2 : reconcile pd c h2
      (t ++ [(⟨c.id, ts.date, ts.clock_zone⟩, h1)]) ts
      = (t ++ [(⟨c.id, ts.date, ts.clock_zone⟩, h1)], []) := by
    simp only [reconcile]
    rw [if_neg, if_neg]
    · rintro ⟨hz, -⟩
      omega
    · rintro ⟨-, hnone⟩
      rw [hlook1] at hnone
      cases hnone
  rw [hstep1]
  refine ⟨rfl, ?_, ?_, ?_⟩
  · show (reconcile pd c h2 (t ++ [(⟨c.id, ts.date, ts.clock_zone⟩, h1)]) ts).2 = []
    rw [hstep2]
  · show (reconcile pd c h2 (t ++ [(⟨c.id, ts.date, ts.clock_zone⟩, h1)]) ts).1 = _
    rw [hstep2]
  · show entriesFor
        (reconcile pd c h2 (t ++ [(⟨c.id, ts.date, ts.clock_zone⟩, h1)]) ts).1
        ⟨c.id, ts.date, ts.clock_zone⟩ = _
    rw [hstep2]
    have h0 : entriesFor t ⟨c.id, ts.date, ts.clock_zone⟩ = [] :=
      entriesFor_eq_nil t _ hfresh
    simp only [entriesFor, List.filter_append] at h0 ⊢
    rw [h0]
    simp [List.filter_cons]

/-- Witness for C6: percent 50 on the empty table, processed twice. -/
theorem c6_idempotent_create_witness :
    (reconcile pd0 cA "h1" [] ⟨1, z9, 50⟩).2
        = [Call.create (format_message pd0 ⟨1, z9, 50⟩ cA)]
    ∧ (reconcile pd0 cA "h2" (reconcile pd0 cA "h1" [] ⟨1, z9, 50⟩).1 ⟨1, z9, 50⟩).2 = []
    ∧ (reconcile pd0 cA "h2" (reconcile pd0 cA "h1" [] ⟨1, z9, 50⟩).1 ⟨1, z9, 50⟩).1
        = (reconcile pd0 cA "h1" [] ⟨1, z9, 50⟩).1
    ∧ entriesFor (reconcile pd0 cA "h2" (reconcile pd0 cA "h1" [] ⟨1, z9, 50⟩).1
          ⟨1, z9, 50⟩).1 ⟨cA.id, 1, z9⟩
        = [(⟨cA.id, 1, z9⟩, "h1")] :=
  c6_idempotent_create pd0 cA "h1" "h2" [] ⟨1, z9, 50⟩ rfl (by decide)

/-! ### Round trip create/delete (claim C7) -/

theorem lookupSlot_reconcile_other (pd : Date → String)
    (c : VaccinationCenter) (h : String) (t : Table) (ts : Timeslot)
    (s : Slot) (hne : (⟨c.id, ts.date, ts.clock_zone⟩ : Slot) ≠ s) :
    lookupSlot (reconcile pd c h t ts).1 s = lookupSlot t s := by
  simp only [reconcile]
  split_ifs with hc1 hc2
  · exact lookupSlot_concat_other t _ s h hne
  · obtain ⟨m, hm⟩ := Option.ne_none_iff_exists'.mp hc2.2
    rw [hm]
    exact lookupSlot_removeSlot_other t _ s hne
  · rfl

theorem lookupSlot_replay_other (pd : Date → String) (obs : List ObsInput)
    (t : Table) (s : Slot) (hobs : ∀ x ∈ obs, slotOf x ≠ s) :
    lookupSlot (replay pd obs t).1 s = lookupSlot t s := by
  induction obs generalizing t with
  | nil => rfl
  | cons x rest ih =>
    obtain ⟨c, ts, h⟩ := x
    simp only [replay]
    rw [ih _ fun y hy => hobs y (List.mem_cons_of_mem _ hy)]
    exact lookupSlot_reconcile_other pd c h t ts s
      (hobs (c, ts, h) (List.mem_cons_self _ _))

/-- C7: a create for a fresh key, followed — possibly after observations
for other keys — by a zero-percent observation for the same key, yields
exactly one delete call, of the very handle stored by the create, and
removes the key from the table; repeating the zero-percent observation is
a no-op issuing no second delete. -/
theorem c7_round_trip (pd : Date → String) (c : VaccinationCenter)
    (h1 h2 h3 : String) (t t1 t2 t3 : Table) (mid : List ObsInput)
    (ts : Timeslot) (calls1 calls2 calls3 : List Call)
    (hfresh : lookupSlot t ⟨c.id, ts.date, ts.clock_zone⟩ = none)
    (hp : 0 < ts.availability_percent)
    (hmid : ∀ x ∈ mid, slotOf x ≠ (⟨c.id, ts.date, ts.clock_zone⟩ : Slot))
    (hstep1 : reconcile pd c h1 t ts = (t1, calls1))
    (hstep2 : reconcile pd c h2 (replay pd mid t1).1
        ⟨ts.date, ts.clock_zone, 0⟩ = (t2, calls2))
    (hstep3 : reconcile pd c h3 t2 ⟨ts.date, ts.clock_zone, 0⟩
        = (t3, calls3)) :
    calls1 = [Call.create (format_message pd ts c)]
    ∧ calls2 = [Call.delete h1]
    ∧ lookupSlot t2 ⟨c.id, ts.date, ts.clock_zone⟩ = none
    ∧ calls3 = []
    ∧ t3 = t2 := by
  have hcond : ts.availability_percent > 0
      ∧ lookupSlot t ⟨c.id, ts.date, ts.clock_zone⟩ = none := ⟨hp, hfresh⟩
  have hs1 : reconcile pd c h1 t ts
      = (t ++ [(⟨c.id, ts.date, ts.clock_zone⟩, h1)],
        [Call.create (format_message pd ts c)]) := by
    simp only [reconcile]
    rw [if_pos hcond]
  rw [hs1] at hstep1
  have ht1' : t1 = t ++ [(⟨c.id, ts.date, ts.clock_zone⟩, h1)] :=
    (congrArg Prod.fst hstep1.symm).trans rfl
  have hcalls1' : calls1 = [Call.create (format_message pd ts c)] :=
    (congrArg Prod.snd hstep1.symm).trans rfl
  have hlookmid : lookupSlot (replay pd mid t1).1 ⟨c.id, ts.date, ts.clock_zone⟩
      = some h1 := by
    rw [lookupSlot_replay_other pd mid t1 _ hmid, ht1']
    exact lookupSlot_concat_self t _ h1 hfresh
  have hs2 : reconcile pd c h2 (replay pd mid t1).1 ⟨ts.date, ts.clock_zone, 0⟩
      = (removeSlot (replay pd mid t1).1 ⟨c.id, ts.date, ts.clock_zone⟩,
        [Call.delete h1]) := by
    simp [reconcile, hlookmid]
  rw [hs2] at hstep2
  have ht2 : t2 = removeSlot (replay pd mid t1).1 ⟨c.id, ts.date, ts.clock_zone⟩ :=
    (congrArg Prod.fst hstep2.symm).trans rfl
  have hcalls2 : calls2 = [Call.delete h1] :=
    (congrArg Prod.snd hstep2.symm).trans rfl
  have hlook2 : lookupSlot t2 ⟨c.id, ts.date, ts.clock_zone⟩ = none := by
    rw [ht2]
    exact lookupSlot_removeSlot_self _ _
  have hs3 : reconcile pd c h3 t2 ⟨ts.date, ts.clock_zone, 0⟩ = (t2, []) := by
    simp [reconcile, hlook2]
  rw [hs3] at hstep3
  exact ⟨hcalls1', hcalls2, hlook2,
    (congrArg Prod.snd hstep3.symm).trans rfl,
    (congrArg Prod.fst hstep3.symm).trans rfl⟩

/-- Witness for C7: create at 50%, an unrelated slot in between, then the
zero observation twice. -/
theorem c7_round_trip_witness :
    ([Call.create (format_message pd0 ⟨1, z9, 50⟩ cA)] : List Call)
        = [Call.create (format_message pd0 ⟨1, z9, 50⟩ cA)]
    ∧ ([Call.delete "h1"] : List Call) = [Call.delete "h1"]
    ∧ lookupSlot [((⟨1, 2, z9⟩ : Slot), "k")] ⟨cA.id, 1, z9⟩ = none
    ∧ ([] : List Call) = []
    ∧ ([((⟨1, 2, z9⟩ : Slot), "k")] : Table) = [(⟨1, 2, z9⟩, "k")] :=
  c7_round_trip pd0 cA "h1" "h2" "h3" []
    [(⟨1, 1, z9⟩, "h1")] [(⟨1, 2, z9⟩, "k")] [(⟨1, 2, z9⟩, "k")] midB
    ⟨1, z9, 50⟩
    [Call.create (format_message pd0 ⟨1, z9, 50⟩ cA)] [Call.delete "h1"] []
    rfl (by decide) (by decide) rfl rfl rfl

/-! ### Uncaught network errors (claim C9) -/

/-- C9 counterexample: a transport failure on the first sweep terminates
the whole loop — the second sweep, whose fetch would have succeeded, is
never processed; the result is the propagated error, not a table. Under
the claim ("the outer loop retries on the next sweep") the run would have
continued with the second sweep. -/
theorem c9_counterexample_no_retry :
    run_sweeps pd0 []
      [Except.error (NetError.transport "connection reset"),
        Except.ok [(cA, ⟨1, z9, 50⟩, "h1")]]
      = Except.error (NetError.transport "connection reset") := rfl

/-- C9 (amended): a network/transport failure during a sweep is not caught
anywhere — after any number of successful sweeps, the first failing sweep
makes the whole loop return that error: the current sweep terminates and
the uncaught exception propagates out of the `while True` loop, ending the
process; the remaining sweeps are never run. -/
theorem c9_uncaught_error_ends_loop (pd : Date → String) (t : Table)
    (pre : List (List ObsInput)) (e : NetError) (rest : List SweepInput) :
    run_sweeps pd t (pre.map Except.ok ++ Except.error e :: rest)
      = Except.error e := by
  induction pre generalizing t with
  | nil => rfl
  | cons obs pre' ih =>
    simp only [List.map_cons, List.cons_append, run_sweeps, run_sweep]
    exact ih _

end Rantevou
